import Mathlib

/-!
Verification of the opcode table exporter (src/data/opcodes_fetcher.py).

The script fetches a JSON document with two top-level groups
("unprefixed", "cbprefixed"), each a mapping from a hexadecimal opcode
identifier string to a descriptor object.  For every descriptor it builds one
CSV row string, stores it in a dict keyed by the integer value of the
identifier interpreted as base 16, and finally writes, per group, a fixed
header line followed by a LF and the row for every key in ascending order.

The embedding below models the parsed document as a lookup function from
top-level key to a list of identifier/descriptor pairs in iteration order,
the per-group dict as its key set together with its lookup function, and the
run as a function from the document to the pair of produced file contents,
with `none` modelling an uncaught exception aborting the run before any
output is written.
-/

namespace Gameman

/-- One opcode descriptor of the source JSON document (section 6 of the
shape accepted by the script): mnemonic and bytes are required, the two
operands are optional, flags_ZHNC is a string and cycles a list of integers. -/
structure Op where
  mnemonic : String
  bytes : Int
  operand1 : Option String
  operand2 : Option String
  flags_ZHNC : String
  cycles : List Int
deriving DecidableEq, Repr

/-- Value of one hexadecimal digit character, case insensitive. -/
def hexDigit (c : Char) : Option Nat :=
  if ('0' ≤ c ∧ c ≤ '9') then some (c.toNat - Char.toNat '0')
  else if ('a' ≤ c ∧ c ≤ 'f') then some (c.toNat - Char.toNat 'a' + 10)
  else if ('A' ≤ c ∧ c ≤ 'F') then some (c.toNat - Char.toNat 'A' + 10)
  else none

/-- Value of a nonempty list of hexadecimal digit characters, most
significant first; `none` if the list is empty or holds a non-digit. -/
def hexDigitsVal : List Char → Option Nat
  | [] => none
  | cs => cs.foldlM (fun acc c => (hexDigit c).map fun d => 16 * acc + d) 0

/-- Models the Python builtin `int(s, base=16)` as applied to opcode
identifiers at line 47: an optional sign, then an optional `0x` or `0X`
marker, then one or more case-insensitive hexadecimal digits.  (CPython
additionally strips surrounding whitespace and allows underscore digit
separators; neither occurs in opcode identifiers and neither is modelled.)
Returns `none` where Python raises `ValueError`. -/
def parseHex (s : String) : Option Int :=
  let signed : Bool × List Char :=
    match s.toList with
    | '-' :: t => (true, t)
    | '+' :: t => (false, t)
    | cs => (false, cs)
  let digits : List Char :=
    match signed.2 with
    | '0' :: 'x' :: t => t
    | '0' :: 'X' :: t => t
    | cs => cs
  (hexDigitsVal digits).map fun n => if signed.1 then -(n : Int) else (n : Int)

/-- Models lines 26 to 37 of the script: a flag character that equals `-`
becomes the empty string, any other flag character is kept as a
one-character string. -/
def flagCol (c : Char) : String :=
  if c = '-' then "" else String.mk [c]

/-- Models lines 42 to 45 of the script: the cycles_no column is the second
element of the cycles list when there is one, rendered like Python renders
an integer, and the empty string otherwise. -/
def cyclesNoCol (cycles : List Int) : String :=
  match cycles.get? 1 with
  | some c => toString c
  | none => ""

/-- The eleven fields of the CSV row built for one descriptor, in the order
of the f-string at line 47: code, mnemonic, operand1, operand2, bytes,
flag_z, flag_h, flag_n, flag_c, cycles_ok, cycles_no.  Returns `none` where
the Python raises an uncaught IndexError: a `flags_ZHNC` string shorter than
four characters or an empty `cycles` list. -/
def rowFieldList (op_id : String) (op : Op) : Option (List String) :=
  match op.flags_ZHNC.toList.get? 0, op.flags_ZHNC.toList.get? 1,
      op.flags_ZHNC.toList.get? 2, op.flags_ZHNC.toList.get? 3,
      op.cycles.get? 0 with
  | some fz, some fh, some fn, some fc, some c0 =>
    some [op_id, op.mnemonic, op.operand1.getD "", op.operand2.getD "",
      toString op.bytes, flagCol fz, flagCol fh, flagCol fn, flagCol fc,
      toString c0, cyclesNoCol op.cycles]
  | _, _, _, _, _ => none

/-- The row string stored for one descriptor at line 47: the eleven fields
joined by commas, exactly as the f-string renders them. -/
def transformRow (op_id : String) (op : Op) : Option String :=
  (rowFieldList op_id op).map fun fs => String.intercalate "," fs

/-- The Python dict `operation_set[op_type]`, keyed by the integer value of
the identifier: its key set together with its lookup function. -/
@[ext] structure PyDict where
  keys : Finset Int
  lookup : Int → Option String

/-- The dict before any descriptor of the group is processed (lines 17 to 19). -/
def PyDict.empty : PyDict :=
  ⟨∅, fun _ => none⟩

/-- Dict assignment `operation_set[op_type][key] = row` at line 47: the key
joins the key set and a later assignment to the same key overwrites the
earlier row. -/
def PyDict.insert (d : PyDict) (k : Int) (v : String) : PyDict :=
  ⟨Insert.insert k d.keys, fun z => if z = k then some v else d.lookup z⟩

/-- The body of the build loop (lines 22 to 47) for one identifier and
descriptor pair: the row string is built first, then the key
`int(op_id, 16)` is computed, then the dict is updated; any failure aborts
the whole run, modelled by `none`, and a run already aborted stays aborted. -/
def groupStep (acc : Option PyDict) (item : String × Op) : Option PyDict :=
  match acc with
  | none => none
  | some d =>
    match transformRow item.1 item.2 with
    | none => none
    | some row =>
      match parseHex item.1 with
      | none => none
      | some key => some (d.insert key row)

/-- Processing the items of one group in iteration order (lines 22 to 47). -/
def buildGroup (items : List (String × Op)) : Option PyDict :=
  items.foldl groupStep (some PyDict.empty)

/-- The fixed header line written at line 51. -/
def headerStr : String :=
  "code,mnemonic,operand1,operand2,bytes,flag_z,flag_h,flag_n,flag_c,cycles_ok,cycles_no"

/-- The data rows of one group in emission order (line 52): the dict rows at
ascending keys. -/
def groupRows (d : PyDict) : List String :=
  (d.keys.sort (· ≤ ·)).map fun k => (d.lookup k).getD ""

/-- The file content written for one group (lines 50 to 54): the header and
then, for each key in ascending order, a LF followed by the row. -/
def exportGroup (d : PyDict) : String :=
  (groupRows d).foldl (fun acc r => acc ++ "\n" ++ r) headerStr

/-- The whole run (lines 15 to 54) as a function of the parsed document: the
two produced file contents, for `unprefixed.csv` and `cbprefixed.csv`, or
`none` when the run aborts with an uncaught exception.  Both groups are
fully transformed before either file is written, so an abort during the
transformation produces no output at all. -/
def runExport (doc : String → Option (List (String × Op))) :
    Option (String × String) :=
  match doc "unprefixed", doc "cbprefixed" with
  | some u, some c =>
    match buildGroup u, buildGroup c with
    | some du, some dc => some (exportGroup du, exportGroup dc)
    | _, _ => none
  | _, _ => none

/-- The tail of the emitted lines: a LF before each row (lines 53 and 54). -/
def linesTail : List String → String
  | [] => ""
  | r :: rs => "\n" ++ r ++ linesTail rs

/-- Rows joined by single LF separators, with no trailing separator. -/
def linesJoined : List String → String
  | [] => ""
  | r :: rs => r ++ linesTail rs

/-- The first line of a string: everything before the first LF. -/
def firstLine (s : String) : String :=
  String.mk (s.data.takeWhile fun c => c != '\n')

/-! Concrete descriptors, groups, dicts and documents used by the witnesses
and counterexamples below. -/

/-- A descriptor with no operands and a single cycles entry. -/
def opNOP : Op := ⟨"NOP", 1, none, none, "----", [4]⟩

/-- A descriptor with both operands present. -/
def opLD : Op := ⟨"LD", 1, some "A", some "B", "----", [4]⟩

/-- A descriptor with mixed flag characters and two cycles entries. -/
def opJR : Op := ⟨"JR", 2, some "NZ", some "r8", "Z-0C", [12, 8]⟩

/-- A descriptor with an empty cycles sequence. -/
def opBad : Op := ⟨"NOP", 1, none, none, "----", []⟩

/-- Two distinct identifier strings denoting the same base-16 value 62. -/
def cexDup : List (String × Op) := [("0x3E", opLD), ("0x3e", opNOP)]

/-- A small well-behaved group: distinct identifiers, distinct values. -/
def wItems : List (String × Op) := [("0x00", opNOP), ("0x01", opLD)]

/-- The well-behaved group in the opposite iteration order. -/
def wItemsRev : List (String × Op) := [("0x01", opLD), ("0x00", opNOP)]

/-- The dict the build loop produces from `wItems`. -/
def wDict : PyDict :=
  (PyDict.empty.insert 0 "0x00,NOP,,,1,,,,,4,").insert 1 "0x01,LD,A,B,1,,,,,4,"

/-- A dict with a single key. -/
def wDict1 : PyDict := PyDict.empty.insert 0 "0x00,NOP,,,1,,,,,4,"

/-- The dict the build loop produces from the colliding group `cexDup`:
both identifiers denote 62, so the second row overwrites the first. -/
def cexDictDup : PyDict :=
  (PyDict.empty.insert 62 "0x3E,LD,A,B,1,,,,,4,").insert 62
    "0x3e,NOP,,,1,,,,,4,"

/-- A concrete flag row: the field list built for the JR descriptor. -/
def wfsJR : List String :=
  ["0x20", "JR", "NZ", "r8", "2", "Z", "", "0", "C", "12", "8"]

/-- The field list built for the NOP descriptor. -/
def wfsNOP : List String :=
  ["0x00", "NOP", "", "", "1", "", "", "", "", "4", ""]

/-- The field list built for the LD descriptor. -/
def wfsLD : List String :=
  ["0x01", "LD", "A", "B", "1", "", "", "", "", "4", ""]

/-- A document whose unprefixed group holds the malformed descriptor. -/
def wDocBad : String → Option (List (String × Op)) :=
  fun s =>
    if s = "unprefixed" then some [("0x00", opBad)]
    else if s = "cbprefixed" then some [] else none

/-- A document lacking the cbprefixed top-level key. -/
def wDocMissing : String → Option (List (String × Op)) :=
  fun s => if s = "unprefixed" then some [] else none

/-- A document holding both groups. -/
def wDocFull : String → Option (List (String × Op)) :=
  fun s =>
    if s = "unprefixed" then some wItems
    else if s = "cbprefixed" then some [] else none

/-- The same two groups as `wDocFull` but different values elsewhere. -/
def wDocFull2 : String → Option (List (String × Op)) :=
  fun s =>
    if s = "unprefixed" then some wItems
    else if s = "cbprefixed" then some [] else some [("0xFF", opNOP)]

/-- Two distinct identifiers with the same base-16 value, one order. -/
def cexPermA : List (String × Op) := [("0x1", opNOP), ("0x01", opLD)]

/-- The same two items in the opposite iteration order. -/
def cexPermB : List (String × Op) := [("0x01", opLD), ("0x1", opNOP)]

/-- A document whose unprefixed group iterates in the first order. -/
def wDocPermA : String → Option (List (String × Op)) :=
  fun s =>
    if s = "unprefixed" then some cexPermA
    else if s = "cbprefixed" then some [] else none

/-- A document whose unprefixed group iterates in the opposite order. -/
def wDocPermB : String → Option (List (String × Op)) :=
  fun s =>
    if s = "unprefixed" then some cexPermB
    else if s = "cbprefixed" then some [] else none

/-- The dict built from the first order: the LD row survives at key 1. -/
def cexDictA : PyDict :=
  (PyDict.empty.insert 1 "0x1,NOP,,,1,,,,,4,").insert 1 "0x01,LD,A,B,1,,,,,4,"

/-- The dict built from the opposite order: the NOP row survives. -/
def cexDictB : PyDict :=
  (PyDict.empty.insert 1 "0x01,LD,A,B,1,,,,,4,").insert 1 "0x1,NOP,,,1,,,,,4,"

/-- A document carrying the well-behaved group in the first order. -/
def wDocOrd1 : String → Option (List (String × Op)) :=
  fun s =>
    if s = "unprefixed" then some wItems
    else if s = "cbprefixed" then some [] else none

/-- The same mappings with the unprefixed group in the opposite order. -/
def wDocOrd2 : String → Option (List (String × Op)) :=
  fun s =>
    if s = "unprefixed" then some wItemsRev
    else if s = "cbprefixed" then some [] else none

/-! Helper lemmas about the build loop. -/

/-- A run already aborted stays aborted through the rest of the loop. -/
theorem foldl_groupStep_none (items : List (String × Op)) :
    items.foldl groupStep none = none := by
  induction items with
  | nil => rfl
  | cons p t ih => exact ih

/-- An item whose row construction raises aborts the loop wherever it sits. -/
theorem foldl_groupStep_bad (items : List (String × Op)) :
    ∀ acc p, p ∈ items → transformRow p.1 p.2 = none →
      items.foldl groupStep acc = none := by
  induction items with
  | nil => intro acc p hp; cases hp
  | cons q t ih =>
    intro acc p hp hbad
    rcases List.mem_cons.mp hp with h | h
    · subst h
      cases acc with
      | none => exact foldl_groupStep_none t
      | some d =>
        have : groupStep (some d) p = none := by
          rw [groupStep, hbad]
        rw [List.foldl_cons, this]
        exact foldl_groupStep_none t
    · exact ih _ p h hbad

/-- When the loop completes, every processed item had a row and a key. -/
theorem foldl_groupStep_success (items : List (String × Op)) :
    ∀ d0 d, items.foldl groupStep (some d0) = some d →
      ∀ p ∈ items, ∃ r k, transformRow p.1 p.2 = some r ∧ parseHex p.1 = some k := by
  induction items with
  | nil => intro d0 d _ p hp; cases hp
  | cons q t ih =>
    intro d0 d hfold p hp
    rw [List.foldl_cons] at hfold
    cases hrow : transformRow q.1 q.2 with
    | none =>
      rw [groupStep, hrow, foldl_groupStep_none] at hfold; cases hfold
    | some row =>
      cases hkey : parseHex q.1 with
      | none =>
        rw [groupStep, hrow, hkey, foldl_groupStep_none] at hfold; cases hfold
      | some key =>
        rw [groupStep, hrow, hkey] at hfold
        rcases List.mem_cons.mp hp with h | h
        · subst h; exact ⟨row, key, hrow, hkey⟩
        · exact ih _ d hfold p h

/-- The key set built by the loop: the starting keys and the parsed value of
every identifier of the processed items. -/
theorem foldl_groupStep_keys (items : List (String × Op)) :
    ∀ d0 d, items.foldl groupStep (some d0) = some d →
      d.keys = d0.keys ∪ (items.filterMap fun p => parseHex p.1).toFinset := by
  induction items with
  | nil =>
    intro d0 d hfold
    cases hfold
    simp
  | cons q t ih =>
    intro d0 d hfold
    rw [List.foldl_cons] at hfold
    cases hrow : transformRow q.1 q.2 with
    | none =>
      rw [groupStep, hrow, foldl_groupStep_none] at hfold; cases hfold
    | some row =>
      cases hkey : parseHex q.1 with
      | none =>
        rw [groupStep, hrow, hkey, foldl_groupStep_none] at hfold; cases hfold
      | some key =>
        rw [groupStep, hrow, hkey] at hfold
        have h := ih _ d hfold
        rw [List.filterMap_cons]
        rw [hkey]
        rw [List.toFinset_cons]
        rw [h]
        rw [PyDict.insert]
        rw [Finset.insert_union, Finset.union_insert]

/-- Every row the finished dict holds comes from a processed item: the
identifier of that item parses to the key of the row and the row is the
transform of that item. -/
theorem foldl_groupStep_lookup (items : List (String × Op)) :
    ∀ d0 d, items.foldl groupStep (some d0) = some d →
      ∀ k r, d.lookup k = some r →
        (∃ p, p ∈ items ∧ parseHex p.1 = some k ∧ transformRow p.1 p.2 = some r) ∨
          d0.lookup k = some r := by
  induction items with
  | nil =>
    intro d0 d hfold k r hlook
    cases hfold
    exact Or.inr hlook
  | cons q t ih =>
    intro d0 d hfold k r hlook
    rw [List.foldl_cons] at hfold
    cases hrow : transformRow q.1 q.2 with
    | none =>
      rw [groupStep, hrow, foldl_groupStep_none] at hfold; cases hfold
    | some row =>
      cases hkey : parseHex q.1 with
      | none =>
        rw [groupStep, hrow, hkey, foldl_groupStep_none] at hfold; cases hfold
      | some key =>
        rw [groupStep, hrow, hkey] at hfold
        rcases ih _ d hfold k r hlook with ⟨p, hp, hpk, hpr⟩ | hbase
        · exact Or.inl ⟨p, List.mem_cons_of_mem _ hp, hpk, hpr⟩
        · rw [PyDict.insert] at hbase
          simp only at hbase
          by_cases hk : k = key
          · subst hk
            rw [if_pos rfl] at hbase
            refine Or.inl ⟨q, List.mem_cons_self _ _, hkey, ?_⟩
            rw [hrow]
            exact congrArg some (Option.some.inj hbase)
          · rw [if_neg hk] at hbase
            exact Or.inr hbase

/-- The number of emitted rows is the number of keys of the dict. -/
theorem groupRows_length (d : PyDict) :
    (groupRows d).length = d.keys.card := by
  rw [groupRows, List.length_map, Finset.length_sort]

/-- Writing the same key twice with the same row is the same as writing it
once. -/
theorem PyDict.insert_same (d : PyDict) (k : Int) (v : String) :
    (d.insert k v).insert k v = d.insert k v := by
  ext z
  · rw [PyDict.insert, PyDict.insert]
    simp [Finset.insert_idem]
  · rw [PyDict.insert, PyDict.insert]
    simp only
    by_cases hz : z = k
    · simp [hz]
    · simp [hz]

/-- Writes to two distinct keys commute. -/
theorem PyDict.insert_swap (d : PyDict) (k1 k2 : Int) (v1 v2 : String)
    (hne : k1 ≠ k2) :
    (d.insert k1 v1).insert k2 v2 = (d.insert k2 v2).insert k1 v1 := by
  ext z
  · rw [PyDict.insert, PyDict.insert, PyDict.insert, PyDict.insert]
    simp [Finset.Insert.comm]
  · rw [PyDict.insert, PyDict.insert, PyDict.insert, PyDict.insert]
    simp only
    by_cases h2 : z = k2
    · subst h2
      rw [if_pos rfl, if_neg (fun h => hne h.symm), if_pos rfl]
    · by_cases h1 : z = k1 <;> simp [h1, h2, hne]

/-- Two loop steps commute when the two items are equal or their identifiers
parse to different results. -/
theorem groupStep_comm (x y : String × Op)
    (hxy : x = y ∨ parseHex x.1 ≠ parseHex y.1) :
    ∀ z, groupStep (groupStep z x) y = groupStep (groupStep z y) x := by
  intro z
  cases z with
  | none => rfl
  | some d =>
    cases hrx : transformRow x.1 x.2 with
    | none =>
      cases hry : transformRow y.1 y.2 with
      | none => simp [groupStep, hrx, hry]
      | some ry =>
        cases hky : parseHex y.1 with
        | none => simp [groupStep, hrx, hry, hky]
        | some ky => simp [groupStep, hrx, hry, hky]
    | some rx =>
      cases hkx : parseHex x.1 with
      | none =>
        cases hry : transformRow y.1 y.2 with
        | none => simp [groupStep, hrx, hry, hkx]
        | some ry =>
          cases hky : parseHex y.1 with
          | none => simp [groupStep, hrx, hry, hkx, hky]
          | some ky => simp [groupStep, hrx, hry, hkx, hky]
      | some kx =>
        cases hry : transformRow y.1 y.2 with
        | none => simp [groupStep, hrx, hry, hkx]
        | some ry =>
          cases hky : parseHex y.1 with
          | none => simp [groupStep, hrx, hry, hkx, hky]
          | some ky =>
            simp only [groupStep, hrx, hry, hkx, hky]
            rcases hxy with heq | hne
            · subst heq
              rw [hrx] at hry
              rw [hkx] at hky
              cases hry
              cases hky
              rw [PyDict.insert_same]
            · have hkk : kx ≠ ky := by
                intro h
                apply hne
                rw [hkx, hky, h]
              rw [PyDict.insert_swap d kx ky rx ry hkk]

/-- Building a group from a permutation of the same items gives the same
dict, provided no two distinct identifier strings of the group parse to the
same key. -/
theorem buildGroup_perm (l1 l2 : List (String × Op)) (hp : l1.Perm l2)
    (hn : (l1.map fun p => parseHex p.1).Nodup) :
    buildGroup l1 = buildGroup l2 := by
  rw [buildGroup, buildGroup]
  refine hp.foldl_eq' ?_ _
  intro x hx y hy z
  refine groupStep_comm x y ?_ z
  by_cases hpe : parseHex x.1 = parseHex y.1
  · exact Or.inl (List.inj_on_of_nodup_map hn hx hy hpe)
  · exact Or.inr hpe

/-- When every identifier parses and no two parse alike, the parsed keys are
as many as the items and have no duplicate. -/
theorem filterMap_parse_of_nodup (items : List (String × Op))
    (hall : ∀ p ∈ items, ∃ k, parseHex p.1 = some k)
    (hn : (items.map fun p => parseHex p.1).Nodup) :
    (items.filterMap fun p => parseHex p.1).Nodup ∧
      (items.filterMap fun p => parseHex p.1).length = items.length := by
  induction items with
  | nil => simp
  | cons q t ih =>
    obtain ⟨k, hk⟩ := hall q (List.mem_cons_self _ _)
    rw [List.map_cons] at hn
    have hn2 := List.nodup_cons.mp hn
    obtain ⟨ht1, ht2⟩ := ih (fun p hp => hall p (List.mem_cons_of_mem _ hp)) hn2.2
    rw [List.filterMap_cons, hk]
    constructor
    · rw [List.nodup_cons]
      refine ⟨?_, ht1⟩
      intro hmem
      rcases List.mem_filterMap.mp hmem with ⟨p, hp, hpk⟩
      apply hn2.1
      rw [← hk] at hpk
      rw [hk]
      exact List.mem_map.mpr ⟨p, hp, hpk.symm ▸ hk⟩
    · rw [List.length_cons, ht2, List.length_cons]

/-- A descriptor with an empty cycles list makes the row construction raise. -/
theorem transformRow_none_of_cycles_nil (op_id : String) (op : Op)
    (h : op.cycles = []) : transformRow op_id op = none := by
  have h0 : op.cycles.get? 0 = none := by rw [h]; rfl
  rw [transformRow, rowFieldList, h0]
  cases h1 : op.flags_ZHNC.toList.get? 0 <;>
    cases h2 : op.flags_ZHNC.toList.get? 1 <;>
      cases h3 : op.flags_ZHNC.toList.get? 2 <;>
        cases h4 : op.flags_ZHNC.toList.get? 3 <;> rfl

/-- The export loop appends a LF and then the row, for each row in order. -/
theorem foldl_lines (rows : List String) :
    ∀ a : String, rows.foldl (fun acc r => acc ++ "\n" ++ r) a =
      a ++ linesTail rows := by
  induction rows with
  | nil => intro a; rw [linesTail]; rw [String.append_empty]; rfl
  | cons r rs ih =>
    intro a
    rw [List.foldl_cons, ih, linesTail]
    simp [String.append_assoc]

/-- The file content of a group: the header followed by the LF-led rows. -/
theorem exportGroup_eq (d : PyDict) :
    exportGroup d = headerStr ++ linesTail (groupRows d) := by
  rw [exportGroup, foldl_lines]

/-- takeWhile walks through a first block whose characters all satisfy the
predicate. -/
theorem takeWhile_append_all (p : Char → Bool) (l1 l2 : List Char)
    (h : ∀ c ∈ l1, p c = true) :
    (l1 ++ l2).takeWhile p = l1 ++ l2.takeWhile p := by
  induction l1 with
  | nil => rfl
  | cons c t ih =>
    rw [List.cons_append, List.takeWhile_cons, h c (List.mem_cons_self _ _)]
    rw [ih fun x hx => h x (List.mem_cons_of_mem _ hx)]
    rfl

/-- No character of the header line is a LF. -/
theorem headerStr_no_lf : ∀ c ∈ headerStr.data, (c != '\n') = true := by
  decide

/-- The first line of any exported group file is the fixed header. -/
theorem firstLine_exportGroup (d : PyDict) :
    firstLine (exportGroup d) = headerStr := by
  rw [exportGroup_eq, firstLine, String.data_append]
  rw [takeWhile_append_all _ _ _ headerStr_no_lf]
  cases hrows : groupRows d with
  | nil =>
    rw [linesTail]
    apply String.ext
    simp
  | cons r rs =>
    rw [linesTail]
    have hdata : ("\n" ++ r ++ linesTail rs).data =
        '\n' :: (r.data ++ (linesTail rs).data) := by
      rw [String.data_append, String.data_append]
      rfl
    rw [hdata, List.takeWhile_cons]
    apply String.ext
    simp

/-! Claim C1. -/

/-- C1 counterexample: in a group of two descriptors under the distinct
identifier strings `0x3E` and `0x3e`, which denote the same base-16 value,
the build loop keeps only one row, so the emitted row count 1 differs from
the descriptor count 2: the claim that the row count always equals the
descriptor count is false on the code. -/
theorem C1_rowcount_counterexample :
    (cexDup.map Prod.fst).Nodup ∧ cexDup.length = 2 ∧
      (buildGroup cexDup).map (fun d => (groupRows d).length) = some 1 := by
  refine ⟨by decide, rfl, ?_⟩
  have h : buildGroup cexDup =
      some ((PyDict.empty.insert 62 "0x3E,LD,A,B,1,,,,,4,").insert 62
        "0x3e,NOP,,,1,,,,,4,") := rfl
  rw [h, Option.map_some', groupRows_length]
  decide

/-- C1 (amended): for every group the build loop completes on, the number of
data rows written equals the number of distinct base-16 integer values among
the identifiers of the group; in particular it equals the number of
descriptors whenever no two distinct identifier strings of the group denote
the same base-16 integer value. -/
theorem C1_rowcount_amended (items : List (String × Op)) (d : PyDict)
    (h : buildGroup items = some d) :
    (groupRows d).length =
        (items.filterMap fun p => parseHex p.1).toFinset.card ∧
      ((items.map fun p => parseHex p.1).Nodup →
        (groupRows d).length = items.length) := by
  have hkeys := foldl_groupStep_keys items PyDict.empty d h
  have hemp : PyDict.empty.keys = ∅ := rfl
  rw [hemp, Finset.empty_union] at hkeys
  have hmain : (groupRows d).length =
      (items.filterMap fun p => parseHex p.1).toFinset.card := by
    rw [groupRows_length, hkeys]
  refine ⟨hmain, fun hn => ?_⟩
  have hall : ∀ p ∈ items, ∃ k, parseHex p.1 = some k := by
    intro p hp
    obtain ⟨r, k, _, hk⟩ := foldl_groupStep_success items PyDict.empty d h p hp
    exact ⟨k, hk⟩
  obtain ⟨hnd, hlen⟩ := filterMap_parse_of_nodup items hall hn
  rw [hmain, List.toFinset_card_of_nodup hnd, hlen]

/-- C1 witness: on the colliding group `cexDup` the row count equals the
number of distinct base-16 values among its identifiers, and on the
collision-free group `wItems` it equals the descriptor count. -/
theorem C1_rowcount_witness :
    (groupRows cexDictDup).length =
        (cexDup.filterMap fun p => parseHex p.1).toFinset.card ∧
      (groupRows wDict).length = wItems.length :=
  ⟨(C1_rowcount_amended cexDup cexDictDup (by rfl)).1,
    (C1_rowcount_amended wItems wDict (by rfl)).2 (by decide)⟩

/-! Claim C2. -/

/-- C2: the rows of a group are emitted at strictly ascending keys, and
every emitted row comes from a descriptor of the group whose identifier,
interpreted as a base-16 integer, is exactly the key the row is emitted at;
hence the rows are sorted strictly ascending by the base-16 value of their
identifier and no two emitted rows of a group share that value. -/
theorem C2_sorted_rows (items : List (String × Op)) (d : PyDict)
    (h : buildGroup items = some d) :
    List.Sorted (· < ·) (d.keys.sort (· ≤ ·)) ∧
      ∀ k r, d.lookup k = some r →
        ∃ p, p ∈ items ∧ parseHex p.1 = some k ∧
          transformRow p.1 p.2 = some r := by
  constructor
  · exact Finset.sort_sorted_lt _
  · intro k r hlook
    rcases foldl_groupStep_lookup items PyDict.empty d h k r hlook with
      hgood | hbase
    · exact hgood
    · simp [PyDict.empty] at hbase

/-- C2 witness: applied to the concrete group `wItems`, the emission order of
`wDict` is strictly ascending and the row at key 0 comes from the descriptor
under identifier `0x00`. -/
theorem C2_sorted_rows_witness :
    List.Sorted (· < ·) (wDict.keys.sort (· ≤ ·)) ∧
      ∃ p, p ∈ wItems ∧ parseHex p.1 = some 0 ∧
        transformRow p.1 p.2 = some "0x00,NOP,,,1,,,,,4," := by
  have h := C2_sorted_rows wItems wDict (by rfl)
  exact ⟨h.1, h.2 0 _ (by rfl)⟩

/-- A successful row construction determines the four flag characters, the
first cycles entry and the exact shape of the field list. -/
theorem rowFieldList_some (op_id : String) (op : Op) (fs : List String)
    (h : rowFieldList op_id op = some fs) :
    ∃ fz fh fn fc c0,
      op.flags_ZHNC.toList.get? 0 = some fz ∧
      op.flags_ZHNC.toList.get? 1 = some fh ∧
      op.flags_ZHNC.toList.get? 2 = some fn ∧
      op.flags_ZHNC.toList.get? 3 = some fc ∧
      op.cycles.get? 0 = some c0 ∧
      fs = [op_id, op.mnemonic, op.operand1.getD "", op.operand2.getD "",
        toString op.bytes, flagCol fz, flagCol fh, flagCol fn, flagCol fc,
        toString c0, cyclesNoCol op.cycles] := by
  unfold rowFieldList at h
  split at h
  · rename_i fz fh fn fc c0 h1 h2 h3 h4 h5
    exact ⟨fz, fh, fn, fc, c0, h1, h2, h3, h4, h5, (Option.some.inj h).symm⟩
  · exact Option.noConfusion h

/-! Claim C3. -/

/-- C3: for each of the four flag positions, taken in the fixed order
Z, H, N, C at fields 5 to 8 of the row, the emitted column is the empty
string when the character at that position of flags_ZHNC is a dash, and is
that character unchanged otherwise. -/
theorem C3_flag_columns (op_id : String) (op : Op) (fs : List String)
    (h : rowFieldList op_id op = some fs) :
    ∀ i c, i < 4 → op.flags_ZHNC.toList.get? i = some c →
      fs.get? (5 + i) = some (if c = '-' then "" else String.mk [c]) := by
  obtain ⟨fz, fh, fn, fc, c0, h1, h2, h3, h4, h5, hfs⟩ :=
    rowFieldList_some op_id op fs h
  intro i c hi hc
  subst hfs
  interval_cases i
  · rw [h1] at hc; cases hc; rfl
  · rw [h2] at hc; cases hc; rfl
  · rw [h3] at hc; cases hc; rfl
  · rw [h4] at hc; cases hc; rfl

/-- C3 witness: on the JR descriptor with flags `Z-0C`, position 1 holds a
dash and the flag_h column is the empty string. -/
theorem C3_flag_columns_witness :
    wfsJR.get? (5 + 1) = some (if '-' = '-' then "" else String.mk ['-']) :=
  C3_flag_columns "0x20" opJR wfsJR (by rfl) 1 '-' (by decide) (by rfl)

/-! Claim C4. -/

/-- C4: field 9 of the row, cycles_ok, is the first element of the cycles
sequence; field 10, cycles_no, is the empty string when the sequence has
length one, and the second element when the sequence has at least two. -/
theorem C4_cycles_columns (op_id : String) (op : Op) (fs : List String)
    (h : rowFieldList op_id op = some fs) :
    (∀ c1, op.cycles.get? 0 = some c1 → fs.get? 9 = some (toString c1)) ∧
      (op.cycles.length = 1 → fs.get? 10 = some "") ∧
      (∀ c2, op.cycles.get? 1 = some c2 → fs.get? 10 = some (toString c2)) := by
  obtain ⟨fz, fh, fn, fc, c0, h1, h2, h3, h4, h5, hfs⟩ :=
    rowFieldList_some op_id op fs h
  subst hfs
  refine ⟨?_, ?_, ?_⟩
  · intro c1 hc1
    rw [h5] at hc1
    cases hc1
    rfl
  · intro hlen
    have h10 : op.cycles.get? 1 = none := by
      cases hcy : op.cycles with
      | nil => rfl
      | cons a t =>
        cases t with
        | nil => rfl
        | cons b t2 => rw [hcy] at hlen; simp at hlen
    have hcol : cyclesNoCol op.cycles = "" := by
      unfold cyclesNoCol
      rw [h10]
    rw [hcol]
    rfl
  · intro c2 hc2
    have hcol : cyclesNoCol op.cycles = toString c2 := by
      unfold cyclesNoCol
      rw [hc2]
    rw [hcol]
    rfl

/-- C4 witness: on the JR descriptor with cycles `[12, 8]` the two cycle
columns are `12` and `8`; on the NOP descriptor with cycles `[4]` the
cycles_no column is empty. -/
theorem C4_cycles_columns_witness :
    wfsJR.get? 9 = some (toString (12 : Int)) ∧
      wfsNOP.get? 10 = some "" ∧
      wfsJR.get? 10 = some (toString (8 : Int)) := by
  have hJ := C4_cycles_columns "0x20" opJR wfsJR (by rfl)
  have hN := C4_cycles_columns "0x00" opNOP wfsNOP (by rfl)
  exact ⟨hJ.1 12 (by rfl), hN.2.1 (by rfl), hJ.2.2 8 (by rfl)⟩

/-! Claim C5. -/

/-- C5: field 2 of the row, operand1, is the empty string when the
descriptor has no operand1 and the value verbatim when it has one, and the
same holds for operand2 at field 3. -/
theorem C5_operand_columns (op_id : String) (op : Op) (fs : List String)
    (h : rowFieldList op_id op = some fs) :
    (op.operand1 = none → fs.get? 2 = some "") ∧
      (∀ s, op.operand1 = some s → fs.get? 2 = some s) ∧
      (op.operand2 = none → fs.get? 3 = some "") ∧
      (∀ s, op.operand2 = some s → fs.get? 3 = some s) := by
  obtain ⟨fz, fh, fn, fc, c0, h1, h2, h3, h4, h5, hfs⟩ :=
    rowFieldList_some op_id op fs h
  subst hfs
  refine ⟨?_, ?_, ?_, ?_⟩
  · intro h1; rw [h1]; rfl
  · intro s hs; rw [hs]; rfl
  · intro h2; rw [h2]; rfl
  · intro s hs; rw [hs]; rfl

/-- C5 witness: the LD descriptor keeps both operand strings verbatim and
the NOP descriptor, with both operands absent, gets empty columns. -/
theorem C5_operand_columns_witness :
    wfsLD.get? 2 = some "A" ∧ wfsNOP.get? 2 = some "" ∧
      wfsLD.get? 3 = some "B" ∧ wfsNOP.get? 3 = some "" := by
  have hL := C5_operand_columns "0x01" opLD wfsLD (by rfl)
  have hN := C5_operand_columns "0x00" opNOP wfsNOP (by rfl)
  exact ⟨hL.2.1 "A" rfl, hN.1 rfl, hL.2.2.2 "B" rfl, hN.2.2.1 rfl⟩

/-! Claim C6. -/

/-- C6: a descriptor with an empty cycles sequence in either group aborts
the whole run before anything is written: no output file is produced for any
group, so in particular no well-formed descriptor of the affected group is
silently exported as a complete file. -/
theorem C6_empty_cycles_aborts (doc : String → Option (List (String × Op)))
    (g : String) (items : List (String × Op)) (p : String × Op)
    (hg : g = "unprefixed" ∨ g = "cbprefixed")
    (hdoc : doc g = some items) (hp : p ∈ items) (hcyc : p.2.cycles = []) :
    runExport doc = none := by
  have hbuild : buildGroup items = none :=
    foldl_groupStep_bad items _ p hp
      (transformRow_none_of_cycles_nil p.1 p.2 hcyc)
  rw [runExport]
  rcases hg with hg | hg
  · subst hg
    rw [hdoc]
    cases hcb : doc "cbprefixed" with
    | none => rfl
    | some c => simp [hbuild]
  · subst hg
    rw [hdoc]
    cases hu : doc "unprefixed" with
    | none => rfl
    | some u => cases hbu : buildGroup u <;> simp [hbuild, hbu]

/-- C6 witness: the concrete document with a `cycles = []` descriptor in the
unprefixed group makes the run abort with no output. -/
theorem C6_empty_cycles_aborts_witness : runExport wDocBad = none :=
  C6_empty_cycles_aborts wDocBad "unprefixed" [("0x00", opBad)]
    ("0x00", opBad) (Or.inl rfl) (by rfl) (List.mem_singleton_self _) rfl

/-! Claim C7. -/

/-- C7: a parsed document lacking either of the two expected top-level keys
makes the run fail before writing any output, and the run reads the document
at exactly the two keys unprefixed and cbprefixed: two documents agreeing
there produce identical results. -/
theorem C7_top_level_keys (doc : String → Option (List (String × Op))) :
    ((doc "unprefixed" = none ∨ doc "cbprefixed" = none) →
        runExport doc = none) ∧
      ∀ doc2, doc "unprefixed" = doc2 "unprefixed" →
        doc "cbprefixed" = doc2 "cbprefixed" →
          runExport doc = runExport doc2 := by
  constructor
  · intro h
    rw [runExport]
    rcases h with h | h
    · rw [h]
    · rw [h]
      cases hu : doc "unprefixed" <;> rfl
  · intro doc2 h1 h2
    rw [runExport, runExport, h1, h2]

/-- C7 witness: a document missing cbprefixed aborts with no output, and two
documents agreeing on the two expected keys export identically. -/
theorem C7_top_level_keys_witness :
    runExport wDocMissing = none ∧ runExport wDocFull = runExport wDocFull2 :=
  ⟨(C7_top_level_keys wDocMissing).1 (Or.inr rfl),
    (C7_top_level_keys wDocFull).2 wDocFull2 rfl rfl⟩

/-! Claim C8. -/

/-- C8: the first line of every produced group file is exactly the fixed
header string, whatever the dict holds, and every emitted row is the
comma-join of the field list of a descriptor of the group, whose first field
is the original identifier string exactly as it appeared in the document. -/
theorem C8_header_and_code (items : List (String × Op)) (d : PyDict)
    (h : buildGroup items = some d) :
    (∀ e : PyDict, firstLine (exportGroup e) = headerStr) ∧
      ∀ k r, d.lookup k = some r →
        ∃ p fs, p ∈ items ∧ rowFieldList p.1 p.2 = some fs ∧
          fs.get? 0 = some p.1 ∧ r = String.intercalate "," fs := by
  constructor
  · exact firstLine_exportGroup
  · intro k r hlook
    rcases foldl_groupStep_lookup items PyDict.empty d h k r hlook with
      ⟨p, hp, hpk, hpr⟩ | hbase
    · rw [transformRow] at hpr
      cases hfs : rowFieldList p.1 p.2 with
      | none => rw [hfs] at hpr; exact Option.noConfusion hpr
      | some fs =>
        rw [hfs, Option.map_some'] at hpr
        obtain ⟨fz, fh, fn, fc, c0, g1, g2, g3, g4, g5, hshape⟩ :=
          rowFieldList_some p.1 p.2 fs hfs
        refine ⟨p, fs, hp, hfs, ?_, (Option.some.inj hpr).symm⟩
        rw [hshape]
        rfl
    · simp [PyDict.empty] at hbase

/-- C8 witness: the empty dict exports a file whose first line is the
header, and the concrete row of `wDict` at key 1 carries its original
identifier `0x01` as first field. -/
theorem C8_header_and_code_witness :
    firstLine (exportGroup PyDict.empty) = headerStr ∧
      ∃ p fs, p ∈ wItems ∧ rowFieldList p.1 p.2 = some fs ∧
        fs.get? 0 = some p.1 ∧
        "0x01,LD,A,B,1,,,,,4," = String.intercalate "," fs := by
  have h := C8_header_and_code wItems wDict (by rfl)
  exact ⟨h.1 PyDict.empty, h.2 1 _ (by rfl)⟩

/-! Claim C9. -/

/-- C9: a group with no keys yields a file holding exactly the header line
and no LF at all, and a group with rows yields the header, then one LF
before each data row, the file ending with the last row and no trailing
separator. -/
theorem C9_line_separators (d : PyDict) :
    (d.keys = ∅ → exportGroup d = headerStr) ∧
      ∀ r rs, groupRows d = r :: rs →
        exportGroup d = headerStr ++ "\n" ++ linesJoined (r :: rs) := by
  constructor
  · intro hk
    have hrows : groupRows d = [] := by
      rw [groupRows, hk, Finset.sort_empty]
      rfl
    rw [exportGroup_eq, hrows, linesTail, String.append_empty]
  · intro r rs hrows
    rw [exportGroup_eq, hrows, linesTail, linesJoined]
    simp [String.append_assoc]

/-- C9 witness: the empty dict gives only the header with no newline, and a
one-row dict gives the header, one LF, and the row with nothing after it. -/
theorem C9_line_separators_witness :
    exportGroup PyDict.empty = headerStr ∧
      exportGroup wDict1 =
        headerStr ++ "\n" ++ linesJoined ["0x00,NOP,,,1,,,,,4,"] := by
  refine ⟨(C9_line_separators PyDict.empty).1 rfl, ?_⟩
  refine (C9_line_separators wDict1).2 _ [] ?_
  rw [groupRows]
  rw [show wDict1.keys = {(0 : Int)} from by
    simp [wDict1, PyDict.insert, PyDict.empty]]
  rw [Finset.sort_singleton]
  rfl

/-! Claim C10. -/

/-- C10 counterexample: over the same group mapping, two identifier strings
that denote the same base-16 value make the output depend on the iteration
order of the mapping, because the later descriptor overwrites the earlier
row under the shared integer key: the two runs produce different bytes, so
the claimed determinism in the parsed document regardless of iteration order
is false on the code. -/
theorem C10_determinism_counterexample :
    cexPermA.Perm cexPermB ∧ (cexPermA.map Prod.fst).Nodup ∧
      runExport wDocPermA ≠ runExport wDocPermB := by
  refine ⟨by decide, by decide, ?_⟩
  have hA : runExport wDocPermA =
      some (exportGroup cexDictA, exportGroup PyDict.empty) := rfl
  have hB : runExport wDocPermB =
      some (exportGroup cexDictB, exportGroup PyDict.empty) := rfl
  have hkA : cexDictA.keys = {(1 : Int)} := by
    simp [cexDictA, PyDict.insert, PyDict.empty]
  have hkB : cexDictB.keys = {(1 : Int)} := by
    simp [cexDictB, PyDict.insert, PyDict.empty]
  have hrowsA : groupRows cexDictA = ["0x01,LD,A,B,1,,,,,4,"] := by
    rw [groupRows, hkA, Finset.sort_singleton]
    rfl
  have hrowsB : groupRows cexDictB = ["0x1,NOP,,,1,,,,,4,"] := by
    rw [groupRows, hkB, Finset.sort_singleton]
    rfl
  have heA : exportGroup cexDictA = headerStr ++ "\n" ++ "0x01,LD,A,B,1,,,,,4," := by
    rw [exportGroup_eq, hrowsA, linesTail, linesTail, String.append_empty]
    simp [String.append_assoc]
  have heB : exportGroup cexDictB = headerStr ++ "\n" ++ "0x1,NOP,,,1,,,,,4," := by
    rw [exportGroup_eq, hrowsB, linesTail, linesTail, String.append_empty]
    simp [String.append_assoc]
  rw [hA, hB, heA, heB]
  intro h
  have h1 := congrArg (fun x => (Option.getD x ("", "")).1) h
  simp only [Option.getD_some] at h1
  exact absurd h1 (by decide)

/-- C10 (amended): the export is deterministic in the parsed document
provided that, within each group, no two distinct identifier strings denote
the same base-16 integer value: two runs over documents carrying the same
two group mappings, in any iteration orders, produce byte-identical
contents for both files.  Without that proviso the surviving row for a
colliding key depends on the iteration order. -/
theorem C10_determinism_amended (f1 f2 : String → Option (List (String × Op)))
    (u1 u2 c1 c2 : List (String × Op))
    (hu1 : f1 "unprefixed" = some u1) (hu2 : f2 "unprefixed" = some u2)
    (hc1 : f1 "cbprefixed" = some c1) (hc2 : f2 "cbprefixed" = some c2)
    (hup : u1.Perm u2) (hcp : c1.Perm c2)
    (hun : (u1.map fun p => parseHex p.1).Nodup)
    (hcn : (c1.map fun p => parseHex p.1).Nodup) :
    runExport f1 = runExport f2 := by
  rw [runExport, runExport, hu1, hu2, hc1, hc2]
  have hbu := buildGroup_perm u1 u2 hup hun
  have hbc := buildGroup_perm c1 c2 hcp hcn
  simp only
  rw [hbu, hbc]

/-- C10 witness: with distinct base-16 values the two iteration orders of
the concrete group export identically. -/
theorem C10_determinism_amended_witness :
    runExport wDocOrd1 = runExport wDocOrd2 :=
  C10_determinism_amended wDocOrd1 wDocOrd2 wItems wItemsRev [] []
    rfl rfl rfl rfl (by decide) (List.Perm.refl _) (by decide) (by decide)

end Gameman
